import Mathlib

/-!
Verification of the core utilities of the fiftyone-workshop-healthcare
repository: the CT windowing normalizer of
`02_load_deeplesion_balanced.ipynb` and the YOLO detection converter of the
evaluation notebook. Python/numpy arithmetic is embedded over `ℚ` (numpy
float64 arithmetic on the small decimal values involved is exact), machine
integers over `ℤ`, and fallible operations return `Option`.
-/

/-! ## Windowing normalizer (02_load_deeplesion_balanced.ipynb) -/

/-- Truncation toward zero of a rational, the conversion performed by numpy
`astype` from a float dtype to an integer dtype. -/
def qTrunc (q : ℚ) : ℤ := if 0 ≤ q then ⌊q⌋ else ⌈q⌉

/-- Source: `clip_and_normalize(np_image, clip_min=-150, clip_max=250)`:
`np_image = np.clip(np_image, clip_min, clip_max)` followed by
`np_image = (np_image - clip_min) / (clip_max - clip_min)`.
`np.clip(a, lo, hi)` is `min (max a lo) hi`, applied here per pixel. -/
def clip_and_normalize (np_image clip_min clip_max : ℚ) : ℚ :=
  (min (max np_image clip_min) clip_max - clip_min) / (clip_max - clip_min)

/-- The stored-to-HU shift in the per-slice loop:
`image = image.astype("int32") - 32768` applied to one 16-bit pixel. -/
def huVal (raw : ℕ) : ℚ := ((raw : ℤ) : ℚ) - 32768

/-- The per-pixel body of the slice loop: HU shift, `clip_and_normalize`,
then `(image * 255).astype("uint8")`. The value returned here is the integer
produced by the truncating float-to-integer conversion, before the cast
wraps it into 8 bits; the theorems below show it already lies in `[0, 255]`
for every valid window, so the cast is exact there. -/
def processSlicePixel (raw : ℕ) (clip_min clip_max : ℚ) : ℤ :=
  qTrunc (clip_and_normalize (huVal raw) clip_min clip_max * 255)

/-- Python `str.split(sep)` for a single-character separator (the only form
the source uses: `','`, `' '`, `'/'`, `'.'`): splits on every occurrence,
keeping empty fields, and maps the empty string to `[""]`. -/
def splitOnChar (sep : Char) : List Char → List (List Char)
  | [] => [[]]
  | c :: rest =>
      match splitOnChar sep rest with
      | cur :: done => if c = sep then [] :: cur :: done else (c :: cur) :: done
      | [] => []

/-- Python `str.split(sep)` lifted to `String`. -/
def pySplit (sep : Char) (s : String) : List String :=
  (splitOnChar sep s.toList).map fun cs => String.mk cs

/-- Python `str.strip()`: drop leading and trailing whitespace. -/
def pyStrip (cs : List Char) : List Char :=
  ((cs.dropWhile Char.isWhitespace).reverse.dropWhile Char.isWhitespace).reverse

/-- Decimal-literal parsing, modelling Python `float(v.strip())` on the
inputs that occur here: optional sign, then digits, an optional point and
fractional digits (no exponent forms, which `DL_info.csv` windows never
use). Returns `none` exactly when `float()` raises `ValueError`. -/
def parseFloat? (s : String) : Option ℚ :=
  let cs := pyStrip s.toList
  let signed : ℚ × List Char :=
    match cs with
    | '-' :: rest => (-1, rest)
    | '+' :: rest => (1, rest)
    | _ => (1, cs)
  let intPart := signed.2.takeWhile Char.isDigit
  let rest := signed.2.dropWhile Char.isDigit
  let intVal : ℕ := intPart.foldl (fun a c => 10 * a + (c.toNat - 48)) 0
  match rest with
  | [] => if intPart.isEmpty then none else some (signed.1 * intVal)
  | '.' :: frac =>
      if frac.all Char.isDigit && (!intPart.isEmpty || !frac.isEmpty) then
        some (signed.1 * ((intVal : ℚ) +
          (frac.foldl (fun a c => 10 * a + (c.toNat - 48)) 0 : ℕ) /
            (10 : ℚ) ^ frac.length))
      else none
  | _ => none

/-- `[float(v.strip()) for v in ...]`: parse every field, failing (raising
`ValueError`) if any field fails. -/
def parseFloats : List String → Option (List ℚ)
  | [] => some []
  | v :: rest =>
      match parseFloat? v, parseFloats rest with
      | some x, some xs => some (x :: xs)
      | _, _ => none

/-- `[float(v.strip()) for v in row['DICOM_windows'].split(',')]`. -/
def windowFloats (s : String) : Option (List ℚ) :=
  parseFloats (pySplit ',' s)

/-- The `try`/`except` window extraction of the row loop:
`DICOM_windows = [float(v.strip()) for v in row['DICOM_windows'].split(',')]`
then `clip_min, clip_max = DICOM_windows[0], DICOM_windows[1]`; on any
exception (parse failure or fewer than two entries) fall back to
`(-150, 250)`. The `Bool` records whether the fallback branch ran (and hence
whether the `"Invalid DICOM window for ..."` diagnostic was printed). -/
def parseDicomWindow (s : String) : (ℚ × ℚ) × Bool :=
  match windowFloats s with
  | some (lo :: hi :: _) => ((lo, hi), false)
  | _ => ((-150, 250), true)

/-- The window string yields at least two parseable comma-separated floats,
i.e. the extraction `DICOM_windows[0], DICOM_windows[1]` succeeds. -/
def TwoFloats (s : String) : Prop :=
  ∃ lo hi rest, windowFloats s = some (lo :: hi :: rest)

/-- The per-row part of the metadata loop, restricted to its window logic:
each row `(File_name, DICOM_windows)` yields the bounds used for its study
and the diagnostics printed for it. The loop is a plain `for` over the rows,
so it is a `map`: no row aborts the run. -/
def windowLoop (rows : List (String × String)) :
    List ((String × (ℚ × ℚ)) × List String) :=
  rows.map fun r =>
    ((r.1, (parseDicomWindow r.2).1),
      if (parseDicomWindow r.2).2 then
        ["Invalid DICOM window for " ++ r.1 ++ ", using default"]
      else [])

/-! ## YOLO detection converter (evaluation notebook) -/

/-- One FiftyOne detection as built by the converter:
`fo.Detection(label=..., bounding_box=box.tolist(), confidence=...)`. -/
structure Detection where
  label : String
  bounding_box : List ℚ
  confidence : ℚ
  deriving DecidableEq

/-- `line.rstrip('\n').split(' ')` then `[float(l) for l in line]`, for each
line of the file. -/
def parseLines : List String → Option (List (List ℚ))
  | [] => some []
  | l :: rest =>
      match parseFloats (pySplit ' ' l), parseLines rest with
      | some d, some ds => some (d :: ds)
      | _, _ => none

/-- `np.array(detections)` requires homogeneous row lengths; a ragged list
raises. -/
def sameLength : List (List ℚ) → Bool
  | [] => true
  | r :: rest => rest.all fun x => x.length == r.length

/-- Source: `read_yolo_detections_file(filepath)`. The file system is
abstracted as the argument: `none` means `os.path.exists` fails (return
`np.array([])`), `some lines` is the file's lines without their trailing
newline. A malformed numeric field raises, which the embedding reports as
`none`. -/
def read_yolo_detections_file (file : Option (List String)) :
    Option (List (List ℚ)) :=
  match file with
  | none => some []
  | some lines =>
      match parseLines lines with
      | none => none
      | some rows => if sameLength rows then some rows else none

/-- Source: `_uncenter_boxes(boxes)`:
`boxes[:, 0] -= boxes[:, 2]/2.` and `boxes[:, 1] -= boxes[:, 3]/2.`, row by
row. A box with fewer than four columns makes the column indexing raise
`IndexError`. -/
def _uncenter_boxes : List (List ℚ) → Option (List (List ℚ))
  | [] => some []
  | (a :: b :: c :: d :: rest) :: boxes =>
      match _uncenter_boxes boxes with
      | some bs => some (((a - c / 2) :: (b - d / 2) :: c :: d :: rest) :: bs)
      | none => none
  | _ => none

/-- Python list indexing `xs[l]` for a possibly negative integer index:
negative indices count from the end; an index outside `[-len, len)` raises
`IndexError` (`none`). -/
def pyIndex (xs : List String) (l : ℤ) : Option String :=
  let i : ℤ := if l < 0 then (xs.length : ℤ) + l else l
  if 0 ≤ i ∧ i < (xs.length : ℤ) then xs[i.toNat]? else none

/-- Source: `_get_class_labels(predicted_classes, class_list)`:
`labels = (predicted_classes).astype(int)` (truncation toward zero) then
`labels = [class_list[l] for l in labels]`. An out-of-range index raises
`IndexError`, aborting the comprehension. -/
def _get_class_labels (predicted_classes : List ℚ) (class_list : List String) :
    Option (List String) :=
  match predicted_classes with
  | [] => some []
  | c :: rest =>
      match pyIndex class_list (qTrunc c) with
      | none => none
      | some lbl =>
          match _get_class_labels rest class_list with
          | none => none
          | some ls => some (lbl :: ls)

/-- `yolo_detections[:, -1]`: the last column. -/
def lastColumn : List (List ℚ) → Option (List ℚ)
  | [] => some []
  | r :: rest =>
      match r.getLast?, lastColumn rest with
      | some x, some xs => some (x :: xs)
      | _, _ => none

/-- `yolo_detections[:, 0]`: the first column. -/
def firstColumn : List (List ℚ) → Option (List ℚ)
  | [] => some []
  | r :: rest =>
      match r.head?, firstColumn rest with
      | some x, some xs => some (x :: xs)
      | _, _ => none

/-- `for label, conf, box in zip(labels, confs, boxes): detections.append(
fo.Detection(label=label, bounding_box=box.tolist(), confidence=conf))`. -/
def buildDetections : List String → List ℚ → List (List ℚ) → List Detection
  | lbl :: ls, cf :: cfs, b :: bs =>
      ⟨lbl, b, cf⟩ :: buildDetections ls cfs bs
  | _, _, _ => []

/-- Source: `convert_yolo_detections_to_fiftyone(yolo_detections,
class_list)`: empty input (`size == 0`) gives an empty `fo.Detections`;
otherwise `boxes = yolo_detections[:, 1:-1]` (all columns strictly between
the first and the last), `_uncenter_boxes(boxes)`,
`confs = yolo_detections[:, -1]`,
`labels = _get_class_labels(yolo_detections[:, 0], class_list)`, zipped into
`fo.Detection` records. Any raised `IndexError` is `none`. -/
def convert_yolo_detections_to_fiftyone (yolo_detections : List (List ℚ))
    (class_list : List String) : Option (List Detection) :=
  if (yolo_detections.map List.length).sum = 0 then some [] else
  match _uncenter_boxes (yolo_detections.map fun r => (r.drop 1).dropLast),
      lastColumn yolo_detections, firstColumn yolo_detections with
  | some boxes, some confs, some classes =>
      match _get_class_labels classes class_list with
      | some labels => some (buildDetections labels confs boxes)
      | none => none
  | _, _, _ => none

/-- Source: `get_prediction_filepath(filepath, run_number=1)`. The source
computes `run_num_string` from `run_number` but never interpolates it into
the returned f-string. -/
def get_prediction_filepath (filepath : String) (run_number : ℤ) : String :=
  let run_num_string := if run_number ≠ 1 then toString run_number else ""
  let filename := ((pySplit '.' ((pySplit '/' filepath).getLastD "")).headD "")
  "/Users/paularamos/Documents/GitHub/awesome-fiftyone/runs/detect/predict/labels/"
    ++ filename ++ ".txt"

/-! ## Helper lemmas -/

/-- Truncation toward zero agrees with the identity on integers. -/
theorem qTrunc_intCast (n : ℤ) : qTrunc (n : ℚ) = n := by
  unfold qTrunc
  split <;> simp

/-! ## Claims -/

/-- C1: the claim asserts that a degenerate window (`clip_max == clip_min`)
is treated as malformed, with the default bounds `(-150, 250)` substituted
before the rescale division. In the code the `try`/`except` only catches
parse failures: the string `"100, 100"` parses successfully, the fallback
flag stays `false`, the bounds are not the defaults, and the rescale divisor
`clip_max - clip_min` is `0` when `clip_and_normalize` runs — the division
by zero the spec's guard was meant to prevent. -/
theorem C1_degenerate_window_not_defaulted :
    parseDicomWindow "100, 100" = ((100, 100), false) ∧
    (parseDicomWindow "100, 100").1 ≠ ((-150 : ℚ), (250 : ℚ)) ∧
    (parseDicomWindow "100, 100").1.2 - (parseDicomWindow "100, 100").1.1 = 0 := by
  refine ⟨?_, ?_, ?_⟩ <;> with_unfolding_all decide

/-- C7: a missing detection file (`os.path.exists` false) and an existing
but empty detection file both yield an empty detection collection from
`read_yolo_detections_file`, and converting that empty collection yields an
empty `fo.Detections`, with no error on any class list. -/
theorem C7_missing_or_empty_file_empty_detections (class_list : List String) :
    read_yolo_detections_file none = some [] ∧
    read_yolo_detections_file (some []) = some [] ∧
    (read_yolo_detections_file none).bind
      (fun rows => convert_yolo_detections_to_fiftyone rows class_list) = some [] ∧
    (read_yolo_detections_file (some [])).bind
      (fun rows => convert_yolo_detections_to_fiftyone rows class_list) = some [] :=
  ⟨rfl, rfl, rfl, rfl⟩

/-- C8: a class index whose integer truncation is at least the class-list
length makes `class_list[l]` raise `IndexError` (`none`), and the
`_get_class_labels` comprehension containing such an index fails as a whole:
the record is neither clamped nor dropped. -/
theorem C8_out_of_range_class_index_errors (class_list : List String) (c : ℚ)
    (pre post : List ℚ) (h : (class_list.length : ℤ) ≤ qTrunc c) :
    pyIndex class_list (qTrunc c) = none ∧
    _get_class_labels (pre ++ c :: post) class_list = none := by
  have h0 : (0 : ℤ) ≤ qTrunc c := le_trans (Int.ofNat_nonneg _) h
  have hpy : pyIndex class_list (qTrunc c) = none := by
    simp only [pyIndex]
    rw [if_neg (not_lt.mpr h0)]
    exact if_neg fun hc => absurd hc.2 (not_lt.mpr h)
  refine ⟨hpy, ?_⟩
  induction pre with
  | nil => simp [_get_class_labels, hpy]
  | cons x xs ih =>
      cases hx : pyIndex class_list (qTrunc x) <;>
        simp [_get_class_labels, hx, ih]

/-- Witness for C8: class index `5` against the 3-element class list
`["a","b","c"]`. -/
theorem C8_witness :
    ((["a", "b", "c"] : List String).length : ℤ) ≤ qTrunc 5 ∧
    (pyIndex ["a", "b", "c"] (qTrunc 5) = none ∧
      _get_class_labels ([] ++ 5 :: []) ["a", "b", "c"] = none) :=
  ⟨by decide, C8_out_of_range_class_index_errors ["a", "b", "c"] 5 [] [] (by decide)⟩

/-- C9: a negative class index `n` with `-len ≤ n ≤ -1` does not raise: it
resolves, Python-style, to the element at position `len + n`, both in
`pyIndex` and through `_get_class_labels`. -/
theorem C9_negative_index_wraps (class_list : List String) (n : ℤ)
    (h1 : -(class_list.length : ℤ) ≤ n) (h2 : n ≤ -1) :
    ∃ s, pyIndex class_list n = some s ∧
      class_list[((class_list.length : ℤ) + n).toNat]? = some s ∧
      _get_class_labels [(n : ℚ)] class_list = some [s] := by
  have hneg : n < 0 := lt_of_le_of_lt h2 (by norm_num)
  have h0 : 0 ≤ (class_list.length : ℤ) + n := by omega
  have hlt : (class_list.length : ℤ) + n < (class_list.length : ℤ) := by omega
  have hnat : ((class_list.length : ℤ) + n).toNat < class_list.length := by omega
  refine ⟨class_list.get ⟨((class_list.length : ℤ) + n).toNat, hnat⟩, ?_, ?_, ?_⟩
  · simp only [pyIndex]
    rw [if_pos hneg, if_pos ⟨h0, hlt⟩]
    simp [List.getElem?_eq_getElem hnat]
  · simp [List.getElem?_eq_getElem hnat]
  · have hq : qTrunc ((n : ℤ) : ℚ) = n := qTrunc_intCast n
    have hpy : pyIndex class_list n =
        some (class_list.get ⟨((class_list.length : ℤ) + n).toNat, hnat⟩) := by
      simp only [pyIndex]
      rw [if_pos hneg, if_pos ⟨h0, hlt⟩]
      simp [List.getElem?_eq_getElem hnat]
    simp [_get_class_labels, hq, hpy]

/-- Witness for C9: index `-1` against `["a","b","c"]` resolves to the last
element. -/
theorem C9_witness :
    -((["a", "b", "c"] : List String).length : ℤ) ≤ -1 ∧ (-1 : ℤ) ≤ -1 ∧
    ∃ s, pyIndex ["a", "b", "c"] (-1) = some s ∧
      (["a", "b", "c"] : List String)[(((["a", "b", "c"] : List String).length : ℤ) + -1).toNat]? = some s ∧
      _get_class_labels [((-1 : ℤ) : ℚ)] ["a", "b", "c"] = some [s] :=
  ⟨by decide, by decide,
    C9_negative_index_wraps ["a", "b", "c"] (-1) (by decide) (by decide)⟩

/-- C10: `get_prediction_filepath` ignores `run_number` entirely and depends
only on the final path component of `filepath`: two filepaths with the same
basename and any two run numbers produce the same prediction path. -/
theorem C10_prediction_path_ignores_run_number (fp1 fp2 : String) (r1 r2 : ℤ)
    (h : (pySplit '/' fp1).getLastD "" = (pySplit '/' fp2).getLastD "") :
    get_prediction_filepath fp1 r1 = get_prediction_filepath fp2 r2 := by
  simp only [get_prediction_filepath]
  rw [h]

/-- Witness for C10: `"a/x.png"` with run 1 and `"b/x.png"` with run 7 map
to the same prediction path. -/
theorem C10_witness :
    (pySplit '/' "a/x.png").getLastD "" = (pySplit '/' "b/x.png").getLastD "" ∧
    get_prediction_filepath "a/x.png" 1 = get_prediction_filepath "b/x.png" 7 :=
  ⟨by decide, C10_prediction_path_ignores_run_number "a/x.png" "b/x.png" 1 7 (by decide)⟩

/-- The clipped value stays within the window when the window is ordered. -/
theorem clip_mem (x clip_min clip_max : ℚ) (h : clip_min ≤ clip_max) :
    clip_min ≤ min (max x clip_min) clip_max ∧
      min (max x clip_min) clip_max ≤ clip_max :=
  ⟨le_min (le_max_right x clip_min) h, min_le_right _ _⟩

/-- The normalized value is nonnegative for every ordered window. -/
theorem clip_and_normalize_nonneg (x clip_min clip_max : ℚ)
    (h : clip_min < clip_max) : 0 ≤ clip_and_normalize x clip_min clip_max :=
  div_nonneg (sub_nonneg.mpr (clip_mem x clip_min clip_max h.le).1)
    (sub_nonneg.mpr h.le)

/-- The normalized value is at most one for every ordered window. -/
theorem clip_and_normalize_le_one (x clip_min clip_max : ℚ)
    (h : clip_min < clip_max) : clip_and_normalize x clip_min clip_max ≤ 1 :=
  (div_le_one (sub_pos.mpr h)).mpr
    (sub_le_sub_right (clip_mem x clip_min clip_max h.le).2 _)

/-- The normalizer is monotone in the pixel value. -/
theorem clip_and_normalize_mono (x y clip_min clip_max : ℚ)
    (h : clip_min < clip_max) (hxy : x ≤ y) :
    clip_and_normalize x clip_min clip_max ≤
      clip_and_normalize y clip_min clip_max := by
  unfold clip_and_normalize
  have hnum : min (max x clip_min) clip_max ≤ min (max y clip_min) clip_max :=
    min_le_min (max_le_max hxy le_rfl) le_rfl
  exact div_le_div_of_nonneg_right (sub_le_sub_right hnum clip_min) (sub_pos.mpr h).le

/-- For ordered windows the scaled value is nonnegative, so the truncating
`astype("uint8")` conversion coincides with the floor. -/
theorem processSlicePixel_eq_floor (raw : ℕ) (clip_min clip_max : ℚ)
    (h : clip_min < clip_max) :
    processSlicePixel raw clip_min clip_max =
      ⌊clip_and_normalize (huVal raw) clip_min clip_max * 255⌋ := by
  unfold processSlicePixel qTrunc
  exact if_pos (mul_nonneg (clip_and_normalize_nonneg _ _ _ h) (by norm_num))

/-- C2: for every window with `clip_min < clip_max` and all raw pixel
values, the 8-bit output lies in `[0, 255]` and is non-decreasing in the raw
(equivalently, in the shifted Hounsfield-unit) pixel value. -/
theorem C2_output_bounded_and_monotone (clip_min clip_max : ℚ) (raw raw' : ℕ)
    (hw : clip_min < clip_max) (hr : raw ≤ raw') :
    0 ≤ processSlicePixel raw clip_min clip_max ∧
    processSlicePixel raw clip_min clip_max ≤ 255 ∧
    processSlicePixel raw clip_min clip_max ≤
      processSlicePixel raw' clip_min clip_max := by
  have hb : ∀ r : ℕ, 0 ≤ clip_and_normalize (huVal r) clip_min clip_max * 255 ∧
      clip_and_normalize (huVal r) clip_min clip_max * 255 ≤ 255 := by
    intro r
    constructor
    · exact mul_nonneg (clip_and_normalize_nonneg _ _ _ hw) (by norm_num)
    · calc clip_and_normalize (huVal r) clip_min clip_max * 255
          ≤ 1 * 255 := by
            exact mul_le_mul_of_nonneg_right
              (clip_and_normalize_le_one _ _ _ hw) (by norm_num)
        _ = 255 := one_mul 255
  refine ⟨?_, ?_, ?_⟩
  · rw [processSlicePixel_eq_floor raw clip_min clip_max hw]
    exact Int.le_floor.mpr (by exact_mod_cast (hb raw).1)
  · rw [processSlicePixel_eq_floor raw clip_min clip_max hw]
    have : (⌊clip_and_normalize (huVal raw) clip_min clip_max * 255⌋ : ℚ) ≤ 255 :=
      le_trans (Int.floor_le _) (hb raw).2
    exact_mod_cast this
  · rw [processSlicePixel_eq_floor raw clip_min clip_max hw,
      processSlicePixel_eq_floor raw' clip_min clip_max hw]
    apply Int.floor_le_floor
    have hhu : huVal raw ≤ huVal raw' := by
      unfold huVal
      have : ((raw : ℤ) : ℚ) ≤ ((raw' : ℤ) : ℚ) := by exact_mod_cast hr
      linarith
    exact mul_le_mul_of_nonneg_right
      (clip_and_normalize_mono _ _ _ _ hw hhu) (by norm_num)

/-- Witness for C2: the default window `(-150, 250)` and raw pixels
`33000 ≤ 33500`. -/
theorem C2_witness :
    ((-150 : ℚ) < 250 ∧ 33000 ≤ 33500) ∧
    (0 ≤ processSlicePixel 33000 (-150) 250 ∧
     processSlicePixel 33000 (-150) 250 ≤ 255 ∧
     processSlicePixel 33000 (-150) 250 ≤ processSlicePixel 33500 (-150) 250) :=
  ⟨⟨by norm_num, by norm_num⟩,
    C2_output_bounded_and_monotone (-150) 250 33000 33500 (by norm_num) (by norm_num)⟩

/-- C3: a pixel whose shifted Hounsfield-unit value is exactly `clip_min`
maps to output `0`, and one exactly at `clip_max` maps to output `255`, for
every window with `clip_min < clip_max`. -/
theorem C3_boundary_pixels (clip_min clip_max : ℚ) (rawLo rawHi : ℕ)
    (hw : clip_min < clip_max)
    (hlo : huVal rawLo = clip_min) (hhi : huVal rawHi = clip_max) :
    processSlicePixel rawLo clip_min clip_max = 0 ∧
    processSlicePixel rawHi clip_min clip_max = 255 := by
  constructor
  · rw [processSlicePixel_eq_floor rawLo clip_min clip_max hw, hlo]
    have : clip_and_normalize clip_min clip_min clip_max = 0 := by
      unfold clip_and_normalize
      rw [max_self, min_eq_left hw.le, sub_self, zero_div]
    rw [this, zero_mul, Int.floor_zero]
  · rw [processSlicePixel_eq_floor rawHi clip_min clip_max hw, hhi]
    have : clip_and_normalize clip_max clip_min clip_max = 1 := by
      unfold clip_and_normalize
      rw [max_eq_left hw.le, min_self,
        div_self (sub_ne_zero.mpr (ne_of_gt hw))]
    rw [this, one_mul]
    norm_num

/-- Witness for C3: with the default window `(-150, 250)`, raw value
`32618` sits exactly at `clip_min` and maps to `0`; raw value `33018` sits
exactly at `clip_max` and maps to `255`. -/
theorem C3_witness :
    ((-150 : ℚ) < 250 ∧ huVal 32618 = -150 ∧ huVal 33018 = 250) ∧
    (processSlicePixel 32618 (-150) 250 = 0 ∧
     processSlicePixel 33018 (-150) 250 = 255) :=
  ⟨⟨by norm_num, by norm_num [huVal], by norm_num [huVal]⟩,
    C3_boundary_pixels (-150) 250 32618 33018 (by norm_num)
      (by norm_num [huVal]) (by norm_num [huVal])⟩

/-- C4, counterexample to round-to-nearest: with window `(0, 2)` the raw
pixel `32769` (shifted HU value `1`) has `normalized * 255 = 127.5`; the
code's truncating `astype("uint8")` produces `127`, while the claimed
`round(normalized * 255)` is `128`. -/
theorem C4_counterexample_truncation_vs_round :
    processSlicePixel 32769 0 2 = 127 ∧
    round (clip_and_normalize (huVal 32769) 0 2 * 255) = 128 ∧
    processSlicePixel 32769 0 2 ≠
      round (clip_and_normalize (huVal 32769) 0 2 * 255) := by
  refine ⟨?_, ?_, ?_⟩ <;> with_unfolding_all decide

/-- C4 as amended: the 8-bit output is the truncation toward zero of
`normalized * 255` — which for every valid window equals its floor, not its
nearest-integer rounding. -/
theorem C4_scaling_truncates (clip_min clip_max : ℚ) (raw : ℕ)
    (hw : clip_min < clip_max) :
    processSlicePixel raw clip_min clip_max =
      ⌊clip_and_normalize (huVal raw) clip_min clip_max * 255⌋ :=
  processSlicePixel_eq_floor raw clip_min clip_max hw

/-- Witness for C4 (amended): the window `(0, 2)` at raw pixel `32769`. -/
theorem C4_witness :
    (0 : ℚ) < 2 ∧
    processSlicePixel 32769 0 2 = ⌊clip_and_normalize (huVal 32769) 0 2 * 255⌋ :=
  ⟨by norm_num, C4_scaling_truncates 0 2 32769 (by norm_num)⟩

/-- C5, counterexample to "exactly the middle four fields, tolerating extra
trailing fields": the seven-field line `"0 0.5 0.5 0.2 0.4 0.9 0.8"` parses,
and the converter's `[:, 1:-1]` slice takes all five middle fields, so the
resulting bounding box has five components, not four. -/
theorem C5_counterexample_seven_field_line :
    read_yolo_detections_file (some ["0 0.5 0.5 0.2 0.4 0.9 0.8"]) =
      some [[0, mkRat 1 2, mkRat 1 2, mkRat 1 5, mkRat 2 5, mkRat 9 10, mkRat 4 5]] ∧
    convert_yolo_detections_to_fiftyone
        [[0, mkRat 1 2, mkRat 1 2, mkRat 1 5, mkRat 2 5, mkRat 9 10, mkRat 4 5]] ["a"] =
      some [Detection.mk "a"
        [mkRat 2 5, mkRat 3 10, mkRat 1 5, mkRat 2 5, mkRat 9 10] (mkRat 4 5)] ∧
    ([mkRat 2 5, mkRat 3 10, mkRat 1 5, mkRat 2 5, mkRat 9 10] : List ℚ).length ≠ 4 := by
  refine ⟨?_, ?_, ?_⟩ <;> with_unfolding_all decide

/-- Evaluation rule for a successful conversion: when the empty-input guard
does not fire and every column extraction succeeds, the converter zips the
labels, confidences and un-centered boxes into detections. -/
theorem convert_eval (yolo : List (List ℚ)) (class_list : List String)
    (boxes : List (List ℚ)) (confs classes : List ℚ) (labels : List String)
    (hne : ¬ (yolo.map List.length).sum = 0)
    (hb : _uncenter_boxes (yolo.map fun r => (r.drop 1).dropLast) = some boxes)
    (hc : lastColumn yolo = some confs)
    (hf : firstColumn yolo = some classes)
    (hl : _get_class_labels classes class_list = some labels) :
    convert_yolo_detections_to_fiftyone yolo class_list =
      some (buildDetections labels confs boxes) := by
  unfold convert_yolo_detections_to_fiftyone
  rw [if_neg hne, hb, hc, hf]
  show (match _get_class_labels classes class_list with
    | some labels => some (buildDetections labels confs boxes)
    | none => none) = some (buildDetections labels confs boxes)
  rw [hl]

/-- C5 as amended: on a line with five or more fields the converter treats
the first field as the class index, the last field as the confidence, and
ALL fields strictly between them (the `[:, 1:-1]` slice) as the box. A line
with `n ≥ 6` fields — written `c :: cx :: cy :: w :: hgt :: rest ++ [conf]`,
so `n = rest.length + 6` — yields the `(n - 2)`-component box
`[cx - w/2, cy - hgt/2, w, hgt] ++ rest`: exactly four components precisely
when the line has exactly six fields. A five-field line makes the
un-centering step raise `IndexError` (its `[:, 1:-1]` slice has only three
columns), so extra trailing fields are not "tolerated" and no box of
exactly four components arises from them. -/
theorem C5_box_is_all_middle_fields (c cx cy w hgt conf : ℚ) (rest : List ℚ)
    (class_list : List String) (lbl : String)
    (hlbl : pyIndex class_list (qTrunc c) = some lbl) :
    (convert_yolo_detections_to_fiftyone
        [(c :: cx :: cy :: w :: hgt :: rest) ++ [conf]] class_list =
      some [Detection.mk lbl
        ((cx - w / 2) :: (cy - hgt / 2) :: w :: hgt :: rest) conf] ∧
     ((cx - w / 2) :: (cy - hgt / 2) :: w :: hgt :: rest).length =
       ((c :: cx :: cy :: w :: hgt :: rest) ++ [conf]).length - 2 ∧
     (((cx - w / 2) :: (cy - hgt / 2) :: w :: hgt :: rest).length = 4 ↔
       ((c :: cx :: cy :: w :: hgt :: rest) ++ [conf]).length = 6)) ∧
    convert_yolo_detections_to_fiftyone [[c, cx, cy, w, conf]] class_list = none := by
  refine ⟨⟨?_, by simp, by simp⟩, rfl⟩
  have hmid : ((((c :: cx :: cy :: w :: hgt :: rest) ++ [conf]).drop 1).dropLast)
      = cx :: cy :: w :: hgt :: rest := by
    rw [List.cons_append, List.drop_succ_cons, List.drop_zero, List.dropLast_concat]
  have hrw := convert_eval [(c :: cx :: cy :: w :: hgt :: rest) ++ [conf]] class_list
    [(cx - w / 2) :: (cy - hgt / 2) :: w :: hgt :: rest] [conf] [c] [lbl]
    (by simp) (by simp only [List.map_cons, List.map_nil, hmid]; rfl)
    (by simp only [lastColumn, List.getLast?_concat])
    (by simp only [firstColumn, List.cons_append, List.head?_cons])
    (by simp only [_get_class_labels, hlbl])
  rw [hrw]
  rfl

/-- Witness for C5 (amended): the six-field line `"2 0.5 0.5 0.2 0.4 0.9"`
(`rest = []`) against class list `["a", "b", "c"]` yields label `"c"`, the
four-component box `[0.4, 0.3, 0.2, 0.4]` and confidence `0.9`, while the
five-field variant fails. -/
theorem C5_witness :
    pyIndex ["a", "b", "c"] (qTrunc 2) = some "c" ∧
    ((convert_yolo_detections_to_fiftyone
        [(2 :: mkRat 1 2 :: mkRat 1 2 :: mkRat 1 5 :: mkRat 2 5 :: ([] : List ℚ))
          ++ [mkRat 9 10]] ["a", "b", "c"] =
      some [Detection.mk "c"
        ((mkRat 1 2 - mkRat 1 5 / 2) :: (mkRat 1 2 - mkRat 2 5 / 2)
          :: mkRat 1 5 :: mkRat 2 5 :: ([] : List ℚ)) (mkRat 9 10)] ∧
      ((mkRat 1 2 - mkRat 1 5 / 2) :: (mkRat 1 2 - mkRat 2 5 / 2)
          :: mkRat 1 5 :: mkRat 2 5 :: ([] : List ℚ)).length =
        ((2 :: mkRat 1 2 :: mkRat 1 2 :: mkRat 1 5 :: mkRat 2 5 :: ([] : List ℚ))
          ++ [mkRat 9 10]).length - 2 ∧
      (((mkRat 1 2 - mkRat 1 5 / 2) :: (mkRat 1 2 - mkRat 2 5 / 2)
          :: mkRat 1 5 :: mkRat 2 5 :: ([] : List ℚ)).length = 4 ↔
        ((2 :: mkRat 1 2 :: mkRat 1 2 :: mkRat 1 5 :: mkRat 2 5 :: ([] : List ℚ))
          ++ [mkRat 9 10]).length = 6)) ∧
     convert_yolo_detections_to_fiftyone
        [[2, mkRat 1 2, mkRat 1 2, mkRat 1 5, mkRat 9 10]] ["a", "b", "c"] = none) :=
  ⟨by with_unfolding_all decide,
    C5_box_is_all_middle_fields 2 (mkRat 1 2) (mkRat 1 2) (mkRat 1 5) (mkRat 2 5)
      (mkRat 9 10) [] ["a", "b", "c"] "c" (by with_unfolding_all decide)⟩

/-- C6: a window string that does not yield two parseable floats makes the
row fall back to the default bounds `(-150, 250)` with a diagnostic naming
the row's file identifier, and the loop still processes every remaining
row. -/
theorem C6_malformed_window_falls_back (name s : String)
    (rows : List (String × String)) (h : ¬ TwoFloats s) :
    parseDicomWindow s = ((-150, 250), true) ∧
    windowLoop ((name, s) :: rows) =
      ((name, (-150, 250)),
        ["Invalid DICOM window for " ++ name ++ ", using default"])
        :: windowLoop rows ∧
    (windowLoop ((name, s) :: rows)).length = rows.length + 1 := by
  have hp : parseDicomWindow s = ((-150, 250), true) := by
    unfold parseDicomWindow
    cases hw : windowFloats s with
    | none => rfl
    | some l =>
        match l with
        | [] => rfl
        | [x] => rfl
        | lo :: hi :: rest => exact absurd ⟨lo, hi, rest, hw⟩ h
  refine ⟨hp, ?_, by simp [windowLoop]⟩
  simp [windowLoop, hp]

/-- Witness for C6: the malformed window string `"abc"` on row
`000001_01_109`. -/
theorem C6_witness :
    ¬ TwoFloats "abc" ∧
    (parseDicomWindow "abc" = ((-150, 250), true) ∧
     windowLoop (("000001_01_109", "abc") :: []) =
       (("000001_01_109", (-150, 250)),
         ["Invalid DICOM window for " ++ "000001_01_109" ++ ", using default"])
         :: windowLoop ([] : List (String × String)) ∧
     (windowLoop (("000001_01_109", "abc") :: [])).length = ([] : List (String × String)).length + 1) := by
  have hn : ¬ TwoFloats "abc" := by
    rintro ⟨lo, hi, rest, hw⟩
    have hone : windowFloats "abc" = none := by with_unfolding_all decide
    rw [hone] at hw
    exact Option.noConfusion hw
  exact ⟨hn, C6_malformed_window_falls_back "000001_01_109" "abc" [] hn⟩
